import Mathlib

/-!
Shallow embedding of `src/JavaScriptObfuscator.ts`, the pipeline orchestrator
of the javascript-obfuscator repository, together with theorems about its
staged-transformation pipeline.

The orchestrator's collaborators (esprima parser facade, transformers runner,
escodegen generator, source-map corrector, random-generator seed, `Date.now`
clock and the logger sink) are modelled as oracle functions packaged in an
environment `Env`.  Every external call and every log emission is recorded in
an event trace, so that stage order, tree chaining, clock sampling and error
propagation are all stated over the trace that an execution produces.
Exceptions of the TypeScript code are modelled with `Except`.
-/

namespace JsObf

/-- Modelled from the spec: the enum file `TransformationStage.ts` is not under
`src/`; the spec fixes the closed, totally ordered set of pipeline stages
(Preparing, DeadCodeInjection, ControlFlowFlattening, Converting, Obfuscating,
Finalizing). -/
inductive TransformationStage where
  | Preparing
  | DeadCodeInjection
  | ControlFlowFlattening
  | Converting
  | Obfuscating
  | Finalizing
  deriving DecidableEq, Repr

/-- Modelled from the spec: the enum file `NodeTransformer.ts` is not under
`src/`; the constructor names are exactly the members referenced by the
`transformersList` static field of `JavaScriptObfuscator.ts` (lines 38-60). -/
inductive NodeTransformer where
  | BlockStatementControlFlowTransformer
  | ClassDeclarationTransformer
  | CommentsTransformer
  | CustomNodesTransformer
  | DeadCodeInjectionTransformer
  | EvalCallExpressionTransformer
  | FunctionControlFlowTransformer
  | CatchClauseTransformer
  | FunctionDeclarationTransformer
  | FunctionTransformer
  | LabeledStatementTransformer
  | LiteralTransformer
  | MemberExpressionTransformer
  | MethodDefinitionTransformer
  | ObfuscatingGuardsTransformer
  | ObjectExpressionKeysTransformer
  | ObjectExpressionTransformer
  | ParentificationTransformer
  | StringArrayTransformer
  | TemplateLiteralTransformer
  | VariableDeclarationTransformer
  deriving DecidableEq, Repr

/-- Modelled from the spec: the enum file `LoggingMessage.ts` is not under
`src/`; the constructors are the members referenced from
`JavaScriptObfuscator.ts`. -/
inductive LoggingMessage where
  | Version
  | ObfuscationStarted
  | RandomGeneratorSeed
  | ObfuscationCompleted
  | EmptySourceCode
  | TransformationStage
  deriving DecidableEq, Repr

/-- Log levels of the `ILogger` collaborator, as its methods are used by the
orchestrator: `info`, `warn` and `success`. -/
inductive LogLevel where
  | info
  | warn
  | success
  deriving DecidableEq, Repr

/-- The `ESTree.Program` root node, as far as the orchestrator inspects it:
a node-kind discriminant, the list of top-level statements (whose contents the
orchestrator never looks at, only `body.length`), and the optional
leading-comment metadata (`!astTree.leadingComments` in JS is true exactly
when the field is absent, since any attached array is truthy). -/
structure Program where
  nodeType : String
  body : List String
  leadingComments : Option (List String)
  deriving DecidableEq, Repr

namespace NodeGuards

/-- Modelled from the spec: `NodeGuards.ts` is not under `src/`; the spec's
degeneracy check requires that the "root kind matches \"program\"", i.e. the
node discriminant is the Program kind. -/
def isProgramNode (node : Program) : Bool :=
  node.nodeType == "Program"

end NodeGuards

/-- The options record handed to `EsprimaFacade.parse` (source lines 138-141). -/
structure ParseOptions where
  attachComment : Bool
  loc : Bool
  deriving DecidableEq, Repr

/-- The escodegen `GenerateOptions` object, restricted to the fields the
orchestrator writes: the three static fields plus the two conditionally
assigned source-map fields and the `format.compact` flag of the final call
object.  `none` means the field is absent from the object. -/
structure GenerateOptions where
  comment : Bool := false
  verbatim : Option String := none
  sourceMapWithCode : Bool := false
  sourceMap : Option String := none
  sourceContent : Option String := none
  formatCompact : Option Bool := none
  deriving DecidableEq, Repr

/-- The `IOptions` fields consulted by the orchestrator. -/
structure IOptions where
  deadCodeInjection : Bool
  controlFlowFlattening : Bool
  sourceMap : Bool
  compact : Bool
  deriving DecidableEq, Repr

/-- A raw source-map object as returned by escodegen when
`sourceMapWithCode` produced one; `toString` yields its serialized form. -/
structure RawSourceMap where
  serialized : String
  deriving DecidableEq, Repr

/-- Serialization of a raw source map, the JS `map.toString()`. -/
def RawSourceMap.toStr (m : RawSourceMap) : String :=
  m.serialized

/-- What `escodegen.generate` returns: code plus an optional source-map
object. -/
structure EscodegenOutput where
  code : String
  map : Option RawSourceMap
  deriving DecidableEq, Repr

/-- The `IGeneratorOutput` after the orchestrator's in-place normalization of
the `map` field (source line 198): the map is always a string. -/
structure IGeneratorOutput where
  code : String
  map : String
  deriving DecidableEq, Repr

/-- The `IObfuscationResult` produced by the source-map corrector. -/
structure IObfuscationResult where
  obfuscatedCode : String
  sourceMap : String
  deriving DecidableEq, Repr

/-- A parse failure of the external parser. -/
structure ParseError where
  message : String
  deriving DecidableEq, Repr

/-- Modelled from the spec: the `TransformersRunner` is not under `src/`; per
the spec a transform failure is "propagated with the offending stage
identifier attached for diagnosis", so the error type carries a stage. -/
structure TransformError where
  stage : TransformationStage
  message : String
  deriving DecidableEq, Repr

/-- A generation failure of the escodegen collaborator. -/
structure GenerationError where
  message : String
  deriving DecidableEq, Repr

/-- The failure modes a run of `obfuscate` can surface to the caller. -/
inductive ObfError where
  | parse (e : ParseError)
  | transform (e : TransformError)
  | generation (e : GenerationError)
  deriving DecidableEq, Repr

/-- Payload attached to a log event: none, a string (version, seed), a stage
identifier, or the elapsed-seconds number of the completion event. -/
inductive LogPayload where
  | noPayload
  | str (s : String)
  | stage (s : TransformationStage)
  | time (t : ℚ)
  deriving DecidableEq, Repr

/-- Decidable equality of collaborator outcomes, needed so that event traces
on concrete inputs can be compared by `decide`. -/
instance {ε α : Type} [DecidableEq ε] [DecidableEq α] : DecidableEq (Except ε α) :=
  fun a b =>
    match a, b with
    | Except.error x, Except.error y =>
      if h : x = y then Decidable.isTrue (by rw [h])
      else Decidable.isFalse (by intro hc; exact h (Except.error.injEq .. ▸ hc))
    | Except.error _, Except.ok _ => Decidable.isFalse (by intro hc; cases hc)
    | Except.ok _, Except.error _ => Decidable.isFalse (by intro hc; cases hc)
    | Except.ok x, Except.ok y =>
      if h : x = y then Decidable.isTrue (by rw [h])
      else Decidable.isFalse (by intro hc; exact h (Except.ok.injEq .. ▸ hc))

/-- One observable event of a run: a log emission, a `Date.now` sample, or a
call to one of the external collaborators together with its outcome. -/
inductive Event where
  | log (level : LogLevel) (message : LoggingMessage) (payload : LogPayload)
  | clockSample (t : Int)
  | parseCall (sourceCode : String) (options : ParseOptions)
      (result : Except ParseError Program)
  | transformCall (astTree : Program) (transformers : List NodeTransformer)
      (stage : TransformationStage) (result : Except TransformError Program)
  | generateCall (astTree : Program) (options : GenerateOptions)
      (result : Except GenerationError EscodegenOutput)
  | correctCall (code : String) (sourceMap : String)
  deriving DecidableEq, Repr

/-- The orchestrator's environment: the configuration plus the behaviour of
every collaborator.  `clock n` is the value of the n-th `Date.now()` call of
the run; `seed` is what `randomGenerator.getSeed()` returns; `version` is the
`pjson` package version. -/
structure Env where
  options : IOptions
  parse : String → ParseOptions → Except ParseError Program
  transform : Program → List NodeTransformer → TransformationStage →
      Except TransformError Program
  generate : Program → GenerateOptions → Except GenerationError EscodegenOutput
  correct : String → String → IObfuscationResult
  seed : String
  version : String
  clock : Nat → Int

namespace JavaScriptObfuscator

/-- The static `escodegenParams` field (source lines 29-33). -/
def escodegenParams : GenerateOptions :=
  { comment := true
    verbatim := some "x-verbatim-property"
    sourceMapWithCode := true }

/-- The static `transformersList` field (source lines 38-60). -/
def transformersList : List NodeTransformer :=
  [ NodeTransformer.BlockStatementControlFlowTransformer
  , NodeTransformer.ClassDeclarationTransformer
  , NodeTransformer.CommentsTransformer
  , NodeTransformer.CustomNodesTransformer
  , NodeTransformer.DeadCodeInjectionTransformer
  , NodeTransformer.EvalCallExpressionTransformer
  , NodeTransformer.FunctionControlFlowTransformer
  , NodeTransformer.CatchClauseTransformer
  , NodeTransformer.FunctionDeclarationTransformer
  , NodeTransformer.FunctionTransformer
  , NodeTransformer.LabeledStatementTransformer
  , NodeTransformer.LiteralTransformer
  , NodeTransformer.MemberExpressionTransformer
  , NodeTransformer.MethodDefinitionTransformer
  , NodeTransformer.ObfuscatingGuardsTransformer
  , NodeTransformer.ObjectExpressionKeysTransformer
  , NodeTransformer.ObjectExpressionTransformer
  , NodeTransformer.ParentificationTransformer
  , NodeTransformer.StringArrayTransformer
  , NodeTransformer.TemplateLiteralTransformer
  , NodeTransformer.VariableDeclarationTransformer ]

/-- `parseCode` (source lines 137-142): delegate to the parser facade with
`attachComment: true` and `loc: this.options.sourceMap`, recording the call. -/
def parseCode (env : Env) (sourceCode : String) :
    Except ParseError Program × List Event :=
  let parseOptions : ParseOptions :=
    { attachComment := true, loc := env.options.sourceMap }
  let r := env.parse sourceCode parseOptions
  (r, [Event.parseCall sourceCode parseOptions r])

/-- `runTransformationStage` (source lines 219-227): log the stage entry, then
run the transformers runner on the tree with the static transformers list and
the stage. -/
def runTransformationStage (env : Env) (astTree : Program)
    (transformationStage : TransformationStage) :
    Except TransformError Program × List Event :=
  let r := env.transform astTree transformersList transformationStage
  (r,
   [ Event.log LogLevel.info LoggingMessage.TransformationStage
       (LogPayload.stage transformationStage)
   , Event.transformCall astTree transformersList transformationStage r ])

/-- One sequential stage invocation with exception short-circuiting: if an
earlier stage already failed the stage does not run at all (the TypeScript
exception unwinds past it); otherwise the stage runs on the previous stage's
output tree and its events are appended to the trace. -/
def stageStep (env : Env) (stage : TransformationStage)
    (acc : Except TransformError Program × List Event) :
    Except TransformError Program × List Event :=
  match acc.1 with
  | Except.error e => (Except.error e, acc.2)
  | Except.ok t =>
    let s := runTransformationStage env t stage
    (s.1, acc.2 ++ s.2)

/-- The degeneracy check of `transformAstTree` (source lines 149-151):
the root is a Program node, the body is empty, and no leading comments are
attached (in JS an attached comment array is truthy even when empty, so the
check is on the presence of the field). -/
def isEmptyAstTree (astTree : Program) : Bool :=
  NodeGuards.isProgramNode astTree
    && astTree.body.isEmpty
    && astTree.leadingComments.isNone

/-- `transformAstTree` (source lines 148-174): short-circuit with a warning on
the canonical empty program, otherwise run Preparing, the two gated stages,
Converting, Obfuscating and Finalizing in order, each on the previous output
tree. -/
def transformAstTree (env : Env) (astTree : Program) :
    Except TransformError Program × List Event :=
  if isEmptyAstTree astTree then
    (Except.ok astTree,
     [Event.log LogLevel.warn LoggingMessage.EmptySourceCode LogPayload.noPayload])
  else
    let acc := stageStep env TransformationStage.Preparing (Except.ok astTree, [])
    let acc :=
      if env.options.deadCodeInjection then
        stageStep env TransformationStage.DeadCodeInjection acc
      else acc
    let acc :=
      if env.options.controlFlowFlattening then
        stageStep env TransformationStage.ControlFlowFlattening acc
      else acc
    let acc := stageStep env TransformationStage.Converting acc
    let acc := stageStep env TransformationStage.Obfuscating acc
    stageStep env TransformationStage.Finalizing acc

/-- The options object handed to `escodegen.generate` (source lines 182-196):
a fresh copy of the static params, source-map fields added when the sourceMap
option is set, then spread together with `format: { compact }`. -/
def escodegenCallOptions (options : IOptions) (sourceCode : String) :
    GenerateOptions :=
  let escodegenParams := JavaScriptObfuscator.escodegenParams
  let escodegenParams :=
    if options.sourceMap then
      { escodegenParams with
          sourceMap := some "sourceMap"
          sourceContent := some sourceCode }
    else escodegenParams
  { escodegenParams with formatCompact := some options.compact }

/-- `generateCode` (source lines 181-201): call escodegen with the assembled
options, then normalize the `map` field in place — its serialized form when a
map object came back, the empty string otherwise. -/
def generateCode (env : Env) (sourceCode : String) (astTree : Program) :
    Except GenerationError IGeneratorOutput × List Event :=
  let callOptions := escodegenCallOptions env.options sourceCode
  let r := env.generate astTree callOptions
  match r with
  | Except.error e => (Except.error e, [Event.generateCall astTree callOptions r])
  | Except.ok generatorOutput =>
    (Except.ok
      { code := generatorOutput.code
        map :=
          match generatorOutput.map with
          | some m => m.toStr
          | none => "" },
     [Event.generateCall astTree callOptions r])

/-- `getObfuscationResult` (source lines 207-212): hand code and normalized
map to the source-map corrector. -/
def getObfuscationResult (env : Env) (generatorOutput : IGeneratorOutput) :
    IObfuscationResult :=
  env.correct generatorOutput.code generatorOutput.map

/-- `obfuscate` (source lines 112-131): sample the clock, emit the start logs,
parse, transform, generate, then log the completion time and hand the output
to the corrector.  A failure of any step aborts the run at that point. -/
def obfuscate (env : Env) (sourceCode : String) :
    Except ObfError IObfuscationResult × List Event :=
  let timeStart : Int := env.clock 0
  let pre : List Event :=
    [ Event.clockSample timeStart
    , Event.log LogLevel.info LoggingMessage.Version (LogPayload.str env.version)
    , Event.log LogLevel.info LoggingMessage.ObfuscationStarted LogPayload.noPayload
    , Event.log LogLevel.info LoggingMessage.RandomGeneratorSeed
        (LogPayload.str env.seed) ]
  let p := parseCode env sourceCode
  match p.1 with
  | Except.error e => (Except.error (ObfError.parse e), pre ++ p.2)
  | Except.ok astTree =>
    let t := transformAstTree env astTree
    match t.1 with
    | Except.error e => (Except.error (ObfError.transform e), pre ++ p.2 ++ t.2)
    | Except.ok obfuscatedAstTree =>
      let g := generateCode env sourceCode obfuscatedAstTree
      match g.1 with
      | Except.error e =>
        (Except.error (ObfError.generation e), pre ++ p.2 ++ t.2 ++ g.2)
      | Except.ok generatorOutput =>
        let timeEnd : Int := env.clock 1
        let obfuscationTime : ℚ := ((timeEnd : ℚ) - (timeStart : ℚ)) / 1000
        (Except.ok (getObfuscationResult env generatorOutput),
         pre ++ p.2 ++ t.2 ++ g.2 ++
           [ Event.clockSample timeEnd
           , Event.log LogLevel.success LoggingMessage.ObfuscationCompleted
               (LogPayload.time obfuscationTime)
           , Event.correctCall generatorOutput.code generatorOutput.map ])

end JavaScriptObfuscator

/-! ## Trace observations -/

/-- The stages a trace shows as entered, read off the stage-entry log events
(`logger.info(LoggingMessage.TransformationStage, stage)`). -/
def stagesOf (trace : List Event) : List TransformationStage :=
  trace.filterMap fun e =>
    match e with
    | Event.log LogLevel.info LoggingMessage.TransformationStage
        (LogPayload.stage s) => some s
    | _ => none

/-- The successful transformers-runner invocations of a trace, each as
(input tree, stage, output tree). -/
def transformCallsOf (trace : List Event) :
    List (Program × TransformationStage × Program) :=
  trace.filterMap fun e =>
    match e with
    | Event.transformCall i _ st (Except.ok o) => some (i, st, o)
    | _ => none

/-- All transformers-runner invocations of a trace (successful or not), each
as the stage it was invoked for. -/
def transformStagesOf (trace : List Event) : List TransformationStage :=
  trace.filterMap fun e =>
    match e with
    | Event.transformCall _ _ st _ => some st
    | _ => none

/-- The `Date.now()` samples of a trace, in order. -/
def clockSamplesOf (trace : List Event) : List Int :=
  trace.filterMap fun e =>
    match e with
    | Event.clockSample t => some t
    | _ => none

/-- The success-level log events of a trace. -/
def successLogsOf (trace : List Event) : List (LoggingMessage × LogPayload) :=
  trace.filterMap fun e =>
    match e with
    | Event.log LogLevel.success m p => some (m, p)
    | _ => none

/-- The parser invocations of a trace, each as the options it received. -/
def parseCallsOf (trace : List Event) : List ParseOptions :=
  trace.filterMap fun e =>
    match e with
    | Event.parseCall _ o _ => some o
    | _ => none

/-- Events a transformation phase may emit: non-success log events and
transformers-runner calls.  In particular no clock sample, no success log, no
generator or corrector call. -/
def Event.isTame : Event → Bool
  | Event.log lv _ _ => lv != LogLevel.success
  | Event.transformCall .. => true
  | _ => false

/-! ## Spec-side reference definitions -/

/-- Transcribes the spec's stage order for a non-degenerate run: Preparing,
then DeadCodeInjection iff its flag is on, then ControlFlowFlattening iff its
flag is on, then Converting, Obfuscating, Finalizing. -/
def specStageOrder (o : IOptions) : List TransformationStage :=
  [TransformationStage.Preparing]
    ++ (if o.deadCodeInjection then [TransformationStage.DeadCodeInjection] else [])
    ++ (if o.controlFlowFlattening then [TransformationStage.ControlFlowFlattening] else [])
    ++ [ TransformationStage.Converting
       , TransformationStage.Obfuscating
       , TransformationStage.Finalizing ]

/-- The four stages that are never configuration-gated. -/
def alwaysOnStages : List TransformationStage :=
  [ TransformationStage.Preparing
  , TransformationStage.Converting
  , TransformationStage.Obfuscating
  , TransformationStage.Finalizing ]

/-- Whether a stage is one of the two configuration-gated ones. -/
def isGatedStage (s : TransformationStage) : Bool :=
  s == TransformationStage.DeadCodeInjection
    || s == TransformationStage.ControlFlowFlattening

/-- The chained stage invocations expected when every transform succeeds and
is described by the function `f`: each entry is (input, stage, output), and
each output is the next entry's input. -/
def chainTrees (f : Program → TransformationStage → Program) :
    Program → List TransformationStage →
      List (Program × TransformationStage × Program)
  | _, [] => []
  | t, s :: rest => (t, s, f t s) :: chainTrees f (f t s) rest

/-- The exact event trace of a successful run through the given stages when
every transform succeeds and is described by `f`. -/
def stageTrace (f : Program → TransformationStage → Program) :
    Program → List TransformationStage → List Event
  | _, [] => []
  | t, s :: rest =>
    [ Event.log LogLevel.info LoggingMessage.TransformationStage (LogPayload.stage s)
    , Event.transformCall t JavaScriptObfuscator.transformersList s
        (Except.ok (f t s)) ]
      ++ stageTrace f (f t s) rest

/-! ## Object heap for the generateCode aliasing claim

`generateCode` mutates an options object in place after copying the static
`escodegenParams` with an object spread.  To state that the spread protects
the static object, JS object identity is made explicit: a heap of
`GenerateOptions` cells, where a spread allocates a fresh cell and a field
assignment mutates a cell in place. -/

/-- A store of escodegen options objects; a reference is an index. -/
structure OptionsHeap where
  cells : List GenerateOptions
  deriving DecidableEq, Repr

/-- Dereference; out-of-range reads return the empty options object. -/
def OptionsHeap.get (h : OptionsHeap) (r : Nat) : GenerateOptions :=
  h.cells.getD r {}

/-- In-place field update of the object a reference points to. -/
def OptionsHeap.set (h : OptionsHeap) (r : Nat) (v : GenerateOptions) :
    OptionsHeap :=
  ⟨h.cells.set r v⟩

/-- Allocation of a fresh object, returning the new heap and the reference. -/
def OptionsHeap.alloc (h : OptionsHeap) (v : GenerateOptions) :
    OptionsHeap × Nat :=
  (⟨h.cells ++ [v]⟩, h.cells.length)

namespace JavaScriptObfuscator

/-- `generateCode`'s option assembly (source lines 182-196) with JS object
identity explicit: `staticRef` points to the shared static `escodegenParams`
object; the spread on line 182-184 allocates a fresh local object; the two
conditional assignments on lines 187-188 mutate that local object in place;
the spread on line 192-195 allocates the object passed to escodegen.  Returns
the final heap and the options object handed to the generator. -/
def generateCodeHeap (options : IOptions) (sourceCode : String)
    (h0 : OptionsHeap) (staticRef : Nat) : OptionsHeap × GenerateOptions :=
  let a1 := h0.alloc (h0.get staticRef)
  let h1 := a1.1
  let localRef := a1.2
  let h2 :=
    if options.sourceMap then
      let hA := h1.set localRef { h1.get localRef with sourceMap := some "sourceMap" }
      hA.set localRef { hA.get localRef with sourceContent := some sourceCode }
    else h1
  let a2 := h2.alloc { h2.get localRef with formatCompact := some options.compact }
  (a2.1, a2.1.get a2.2)

/-- A transform failure is witnessed in the trace: some transformers-runner
call on some tree and stage is recorded as having produced exactly this
error. -/
def errWitness (env : Env) (er : TransformError) (tr : List Event) : Prop :=
  ∃ p st,
    Event.transformCall p transformersList st (Except.error er) ∈ tr ∧
      env.transform p transformersList st = Except.error er

/-- The four run-start events of every run of `obfuscate`: the entry clock
sample and the three informational logs. -/
def startTrace (env : Env) : List Event :=
  [ Event.clockSample (env.clock 0)
  , Event.log LogLevel.info LoggingMessage.Version (LogPayload.str env.version)
  , Event.log LogLevel.info LoggingMessage.ObfuscationStarted LogPayload.noPayload
  , Event.log LogLevel.info LoggingMessage.RandomGeneratorSeed
      (LogPayload.str env.seed) ]

end JavaScriptObfuscator

/-! ## Further definitions used by the theorems -/

/-- The map normalization of `generateCode` (source line 198): the serialized
form of the map object when one was produced, the empty string otherwise. -/
def serializeMap : Option RawSourceMap → String
  | some m => m.toStr
  | none => ""

/-- Modelled from the spec: the `TransformersRunner` is not under `src/`; the
spec's Stage Runner contract says a transform failure is propagated "with the
offending stage identifier attached", i.e. a failure of a transform invoked
for a stage carries exactly that stage. -/
def stageRunnerNamesStage (env : Env) : Prop :=
  ∀ p st er,
    env.transform p JavaScriptObfuscator.transformersList st = Except.error er →
      er.stage = st

/-- A concrete one-statement program, not degenerate. -/
def sampleProgram : Program :=
  { nodeType := "Program", body := ["var x;"], leadingComments := none }

/-- The canonical empty program: Program root, no statements, no leading
comments attached. -/
def emptyProgram : Program :=
  { nodeType := "Program", body := [], leadingComments := none }

/-- A concrete generator output carrying a source-map object. -/
def sampleEscodegenOutput : EscodegenOutput :=
  { code := "obfuscated", map := some ⟨"MAP"⟩ }

/-- A concrete environment whose collaborators all succeed: the parser yields
`sampleProgram`, every transform returns its input tree, the generator yields
`sampleEscodegenOutput`. -/
def sampleEnv : Env :=
  { options :=
      { deadCodeInjection := true, controlFlowFlattening := false,
        sourceMap := true, compact := false }
    parse := fun _ _ => Except.ok sampleProgram
    transform := fun p _ _ => Except.ok p
    generate := fun _ _ => Except.ok sampleEscodegenOutput
    correct := fun c m => { obfuscatedCode := c, sourceMap := m }
    seed := "seed"
    version := "0.18.1"
    clock := fun n => if n = 0 then 2000 else 5000 }

/-- A concrete environment whose parser yields the canonical empty program. -/
def emptyInputEnv : Env :=
  { sampleEnv with parse := fun _ _ => Except.ok emptyProgram }

/-- A concrete environment whose transformers runner faults during the
Obfuscating stage, attaching that stage to the error. -/
def failingObfuscatingEnv : Env :=
  { sampleEnv with
      transform := fun p _ st =>
        if st = TransformationStage.Obfuscating then
          Except.error { stage := st, message := "fault" }
        else Except.ok p }

/-- A concrete environment whose parser rejects every input. -/
def parseRejectEnv : Env :=
  { sampleEnv with parse := fun _ _ => Except.error { message := "Unexpected token" } }

/-! ## Helper lemmas about traces -/

theorem clockSamplesOf_append (tr tr' : List Event) :
    clockSamplesOf (tr ++ tr') = clockSamplesOf tr ++ clockSamplesOf tr' :=
  List.filterMap_append ..

theorem stagesOf_append (tr tr' : List Event) :
    stagesOf (tr ++ tr') = stagesOf tr ++ stagesOf tr' :=
  List.filterMap_append ..

theorem transformCallsOf_append (tr tr' : List Event) :
    transformCallsOf (tr ++ tr') = transformCallsOf tr ++ transformCallsOf tr' :=
  List.filterMap_append ..

theorem transformStagesOf_append (tr tr' : List Event) :
    transformStagesOf (tr ++ tr') = transformStagesOf tr ++ transformStagesOf tr' :=
  List.filterMap_append ..

theorem successLogsOf_append (tr tr' : List Event) :
    successLogsOf (tr ++ tr') = successLogsOf tr ++ successLogsOf tr' :=
  List.filterMap_append ..

/-- A trace of tame events contains no clock sample. -/
theorem clockSamplesOf_of_tame (tr : List Event)
    (h : ∀ e ∈ tr, e.isTame = true) : clockSamplesOf tr = [] := by
  refine List.filterMap_eq_nil_iff.mpr ?_
  intro e he
  have := h e he
  cases e <;> simp_all [Event.isTame]

/-- A trace of tame events contains no success-level log event. -/
theorem successLogsOf_of_tame (tr : List Event)
    (h : ∀ e ∈ tr, e.isTame = true) : successLogsOf tr = [] := by
  refine List.filterMap_eq_nil_iff.mpr ?_
  intro e he
  have := h e he
  cases e with
  | log lv m p =>
    cases lv <;> simp_all [Event.isTame, successLogsOf]
  | _ => rfl

theorem parseCallsOf_append (tr tr' : List Event) :
    parseCallsOf (tr ++ tr') = parseCallsOf tr ++ parseCallsOf tr' :=
  List.filterMap_append ..

/-- A trace of tame events records no parser invocation. -/
theorem parseCallsOf_eq_nil_of_tame (tr : List Event)
    (h : ∀ e ∈ tr, e.isTame = true) : parseCallsOf tr = [] := by
  refine List.filterMap_eq_nil_iff.mpr ?_
  intro e he
  have := h e he
  cases e <;> simp_all [Event.isTame]

namespace JavaScriptObfuscator

/-- `stageStep` leaves an error accumulator untouched. -/
theorem stageStep_error (env : Env) (stage : TransformationStage)
    (er : TransformError) (tr : List Event) :
    stageStep env stage (Except.error er, tr) = (Except.error er, tr) := rfl

/-- `stageStep` on a live accumulator runs the stage on the current tree and
appends the stage-entry log and the transform call to the trace. -/
theorem stageStep_ok (env : Env) (stage : TransformationStage)
    (t : Program) (tr : List Event) :
    stageStep env stage (Except.ok t, tr) =
      (env.transform t transformersList stage,
       tr ++
         [ Event.log LogLevel.info LoggingMessage.TransformationStage
             (LogPayload.stage stage)
         , Event.transformCall t transformersList stage
             (env.transform t transformersList stage) ]) := rfl

/-- `stageStep` preserves tameness of the trace. -/
theorem stageStep_tame (env : Env) (stage : TransformationStage)
    (acc : Except TransformError Program × List Event)
    (h : ∀ e ∈ acc.2, e.isTame = true) :
    ∀ e ∈ (stageStep env stage acc).2, e.isTame = true := by
  obtain ⟨r, tr⟩ := acc
  cases r with
  | error er => simpa [stageStep] using h
  | ok t =>
    intro e he
    simp only [stageStep, runTransformationStage, List.mem_append, List.mem_cons,
      List.not_mem_nil, or_false] at he
    rcases he with he | he | he
    · exact h e he
    · subst he; simp [Event.isTame]
    · subst he; simp [Event.isTame]

/-- A gated `stageStep` (run or skipped depending on a flag) preserves
tameness of the trace. -/
theorem stageStep_gated_tame (env : Env) (stage : TransformationStage)
    (b : Bool) (acc : Except TransformError Program × List Event)
    (h : ∀ e ∈ acc.2, e.isTame = true) :
    ∀ e ∈ (if b then stageStep env stage acc else acc).2, e.isTame = true := by
  cases b
  · simpa using h
  · simpa using stageStep_tame env stage acc h

/-- The trace of `transformAstTree` is tame: only non-success log events and
transform calls, whatever the outcome. -/
theorem transformAstTree_tame (env : Env) (astTree : Program) :
    ∀ e ∈ (transformAstTree env astTree).2, e.isTame = true := by
  unfold transformAstTree
  by_cases hdeg : isEmptyAstTree astTree
  · simp [hdeg, Event.isTame]
  · simp only [hdeg, if_false, Bool.false_eq_true]
    apply stageStep_tame
    apply stageStep_tame
    apply stageStep_tame
    apply stageStep_gated_tame
    apply stageStep_gated_tame
    apply stageStep_tame
    simp

/-- `stageStep` preserves the error-witness property. -/
theorem stageStep_err (env : Env) (stage : TransformationStage)
    (acc : Except TransformError Program × List Event)
    (h : ∀ er, acc.1 = Except.error er → errWitness env er acc.2) :
    ∀ er, (stageStep env stage acc).1 = Except.error er →
      errWitness env er (stageStep env stage acc).2 := by
  obtain ⟨r, tr⟩ := acc
  cases r with
  | error e0 =>
    intro er hres
    simp only [stageStep_error] at hres ⊢
    exact h er hres
  | ok t =>
    intro er hres
    simp only [stageStep_ok] at hres ⊢
    refine ⟨t, stage, ?_, hres⟩
    apply List.mem_append_right
    simp [hres]

/-- A gated `stageStep` preserves the error-witness property. -/
theorem stageStep_gated_err (env : Env) (stage : TransformationStage)
    (b : Bool) (acc : Except TransformError Program × List Event)
    (h : ∀ er, acc.1 = Except.error er → errWitness env er acc.2) :
    ∀ er, (if b then stageStep env stage acc else acc).1 = Except.error er →
      errWitness env er (if b then stageStep env stage acc else acc).2 := by
  cases b
  · simpa using h
  · simpa using stageStep_err env stage acc h

/-- If `transformAstTree` fails, its trace records the failing
transformers-runner call producing exactly that error. -/
theorem transformAstTree_err (env : Env) (astTree : Program) :
    ∀ er, (transformAstTree env astTree).1 = Except.error er →
      errWitness env er (transformAstTree env astTree).2 := by
  unfold transformAstTree
  by_cases hdeg : isEmptyAstTree astTree
  · intro er hres
    simp [hdeg] at hres
  · simp only [hdeg, Bool.false_eq_true, if_false]
    apply stageStep_err
    apply stageStep_err
    apply stageStep_err
    apply stageStep_gated_err
    apply stageStep_gated_err
    apply stageStep_err
    intro er hres
    simp at hres

/-- The degenerate branch of `transformAstTree`: warn and return the tree
itself, running nothing. -/
theorem transformAstTree_empty (env : Env) (astTree : Program)
    (hdeg : isEmptyAstTree astTree = true) :
    transformAstTree env astTree =
      (Except.ok astTree,
       [Event.log LogLevel.warn LoggingMessage.EmptySourceCode
          LogPayload.noPayload]) := by
  simp [transformAstTree, hdeg]

/-- The non-degenerate branch of `transformAstTree` when every transform
succeeds and acts as the function `f`: the run walks exactly the spec's stage
order, folding `f` over it, and the trace is the corresponding stage trace. -/
theorem transformAstTree_run (env : Env) (astTree : Program)
    (f : Program → TransformationStage → Program)
    (hdeg : isEmptyAstTree astTree = false)
    (hf : ∀ p st, env.transform p transformersList st = Except.ok (f p st)) :
    transformAstTree env astTree =
      (Except.ok (List.foldl f astTree (specStageOrder env.options)),
       stageTrace f astTree (specStageOrder env.options)) := by
  unfold transformAstTree
  rw [hdeg]
  cases hD : env.options.deadCodeInjection <;>
    cases hC : env.options.controlFlowFlattening <;>
      simp [stageStep_ok, hf, specStageOrder, stageTrace, hD, hC]

/-- The stage-entry log events of a stage trace list exactly its stages. -/
theorem stagesOf_stageTrace (f : Program → TransformationStage → Program)
    (t : Program) (l : List TransformationStage) :
    stagesOf (stageTrace f t l) = l := by
  induction l generalizing t with
  | nil => rfl
  | cons s rest ih =>
    have h := ih (f t s)
    simp only [stagesOf] at h
    simp [stageTrace, stagesOf, List.filterMap_cons, h]

/-- The transform calls of a stage trace are the chained invocations of `f`. -/
theorem transformCallsOf_stageTrace (f : Program → TransformationStage → Program)
    (t : Program) (l : List TransformationStage) :
    transformCallsOf (stageTrace f t l) = chainTrees f t l := by
  induction l generalizing t with
  | nil => rfl
  | cons s rest ih =>
    have h := ih (f t s)
    simp only [transformCallsOf] at h
    simp [stageTrace, transformCallsOf, chainTrees, List.filterMap_cons, h]

/-- The transformers-runner invocations of a stage trace list its stages. -/
theorem transformStagesOf_stageTrace (f : Program → TransformationStage → Program)
    (t : Program) (l : List TransformationStage) :
    transformStagesOf (stageTrace f t l) = l := by
  induction l generalizing t with
  | nil => rfl
  | cons s rest ih =>
    have h := ih (f t s)
    simp only [transformStagesOf] at h
    simp [stageTrace, transformStagesOf, List.filterMap_cons, h]

/-- The trace of `generateCode` is the single generator call with the
assembled options, whatever the generator's outcome. -/
theorem generateCode_trace (env : Env) (sourceCode : String) (astTree : Program) :
    (generateCode env sourceCode astTree).2 =
      [Event.generateCall astTree (escodegenCallOptions env.options sourceCode)
        (env.generate astTree (escodegenCallOptions env.options sourceCode))] := by
  unfold generateCode
  cases hg : env.generate astTree (escodegenCallOptions env.options sourceCode) <;>
    simp [hg]

/-- A failing parse aborts `obfuscate` right after the start events, surfacing
the parse error unmodified. -/
theorem obfuscate_parse_error (env : Env) (sourceCode : String) (pe : ParseError)
    (hp : env.parse sourceCode { attachComment := true, loc := env.options.sourceMap }
        = Except.error pe) :
    obfuscate env sourceCode =
      (Except.error (ObfError.parse pe),
       startTrace env ++
         [Event.parseCall sourceCode
            { attachComment := true, loc := env.options.sourceMap }
            (Except.error pe)]) := by
  simp [obfuscate, parseCode, hp, startTrace]

/-- A failing transformation phase aborts `obfuscate` after the parse call,
surfacing the transform error. -/
theorem obfuscate_transform_error (env : Env) (sourceCode : String)
    (t : Program) (er : TransformError) (ttr : List Event)
    (hp : env.parse sourceCode { attachComment := true, loc := env.options.sourceMap }
        = Except.ok t)
    (ht : transformAstTree env t = (Except.error er, ttr)) :
    obfuscate env sourceCode =
      (Except.error (ObfError.transform er),
       startTrace env ++
         [Event.parseCall sourceCode
            { attachComment := true, loc := env.options.sourceMap }
            (Except.ok t)] ++ ttr) := by
  simp [obfuscate, parseCode, hp, ht, startTrace]

/-- A run in which parsing, transformation and generation all succeed:
the result is the corrector's output on the normalized generator output, and
the trace is the full event sequence ending in the completion clock sample,
the success log and the corrector call. -/
theorem obfuscate_run (env : Env) (sourceCode : String) (t t2 : Program)
    (ttr : List Event) (out : IGeneratorOutput)
    (hp : env.parse sourceCode { attachComment := true, loc := env.options.sourceMap }
        = Except.ok t)
    (ht : transformAstTree env t = (Except.ok t2, ttr))
    (hg : (generateCode env sourceCode t2).1 = Except.ok out) :
    obfuscate env sourceCode =
      (Except.ok (env.correct out.code out.map),
       startTrace env ++
         [Event.parseCall sourceCode
            { attachComment := true, loc := env.options.sourceMap }
            (Except.ok t)] ++
         ttr ++ (generateCode env sourceCode t2).2 ++
         [ Event.clockSample (env.clock 1)
         , Event.log LogLevel.success LoggingMessage.ObfuscationCompleted
             (LogPayload.time (((env.clock 1 : ℚ) - (env.clock 0 : ℚ)) / 1000))
         , Event.correctCall out.code out.map ]) := by
  simp [obfuscate, parseCode, hp, ht, hg, getObfuscationResult, startTrace]

/-- A failing generation aborts `obfuscate` after the transformation phase,
surfacing the generation error; no completion is logged and the corrector is
not reached. -/
theorem obfuscate_generation_error (env : Env) (sourceCode : String)
    (t t2 : Program) (ttr : List Event) (ge : GenerationError)
    (hp : env.parse sourceCode { attachComment := true, loc := env.options.sourceMap }
        = Except.ok t)
    (ht : transformAstTree env t = (Except.ok t2, ttr))
    (hg : (generateCode env sourceCode t2).1 = Except.error ge) :
    obfuscate env sourceCode =
      (Except.error (ObfError.generation ge),
       startTrace env ++
         [Event.parseCall sourceCode
            { attachComment := true, loc := env.options.sourceMap }
            (Except.ok t)] ++
         ttr ++ (generateCode env sourceCode t2).2) := by
  simp [obfuscate, parseCode, hp, ht, hg, startTrace]

/-- `transformAstTree` only consults the configuration and the transformers
runner: environments agreeing on those behave identically. -/
theorem transformAstTree_observe (env env' : Env)
    (ho : env.options = env'.options) (htr : env.transform = env'.transform)
    (t : Program) : transformAstTree env t = transformAstTree env' t := by
  simp only [transformAstTree, stageStep, runTransformationStage, ho, htr]

/-- `generateCode` only consults the configuration and the generator:
environments agreeing on those behave identically. -/
theorem generateCode_observe (env env' : Env)
    (ho : env.options = env'.options) (hg : env.generate = env'.generate)
    (sourceCode : String) (t : Program) :
    generateCode env sourceCode t = generateCode env' sourceCode t := by
  simp only [generateCode, ho, hg]

end JavaScriptObfuscator

/-! ## Heap lemmas -/

theorem OptionsHeap.alloc_ref (h : OptionsHeap) (v : GenerateOptions) :
    (h.alloc v).2 = h.cells.length := rfl

theorem OptionsHeap.length_alloc (h : OptionsHeap) (v : GenerateOptions) :
    (h.alloc v).1.cells.length = h.cells.length + 1 := by
  simp [OptionsHeap.alloc]

theorem OptionsHeap.length_set (h : OptionsHeap) (i : Nat) (v : GenerateOptions) :
    (h.set i v).cells.length = h.cells.length :=
  List.length_set ..

/-- Allocation does not disturb existing cells. -/
theorem OptionsHeap.get_alloc_of_lt (h : OptionsHeap) (v : GenerateOptions)
    (r : Nat) (hr : r < h.cells.length) : (h.alloc v).1.get r = h.get r := by
  simp [OptionsHeap.alloc, OptionsHeap.get, List.getD_eq_getElem?_getD,
    List.getElem?_append_left hr]

/-- Dereferencing a fresh allocation yields the allocated object. -/
theorem OptionsHeap.get_alloc_self (h : OptionsHeap) (v : GenerateOptions) :
    (h.alloc v).1.get (h.alloc v).2 = v := by
  simp [OptionsHeap.alloc, OptionsHeap.get, List.getD_eq_getElem?_getD]

/-- In-place update of one object does not disturb a different one. -/
theorem OptionsHeap.get_set_ne (h : OptionsHeap) (i r : Nat)
    (v : GenerateOptions) (hne : i ≠ r) : (h.set i v).get r = h.get r := by
  simp [OptionsHeap.set, OptionsHeap.get, List.getD_eq_getElem?_getD,
    List.getElem?_set_ne hne]

/-- In-place update of a live object is observed on dereference. -/
theorem OptionsHeap.get_set_self (h : OptionsHeap) (i : Nat)
    (v : GenerateOptions) (hi : i < h.cells.length) : (h.set i v).get i = v := by
  simp [OptionsHeap.set, OptionsHeap.get, List.getD_eq_getElem?_getD,
    List.getElem?_set_self, hi]

/-! ## Claim theorems -/

open JavaScriptObfuscator

/-- C10: `generateCode` never mutates the shared static generation parameters
(comment, verbatim, sourceMapWithCode): the object spread copies them into a
fresh options object before the conditional source-map field assignments, so
the static parameter object is identical before and after the call; and under
that unchanged static object the options handed to escodegen are exactly the
assembled call options. -/
theorem C10_generateCode_preserves_static_params (options : IOptions)
    (sourceCode : String) (h0 : OptionsHeap) (staticRef : Nat)
    (hr : staticRef < h0.cells.length) :
    ((generateCodeHeap options sourceCode h0 staticRef).1).get staticRef
        = h0.get staticRef ∧
      (h0.get staticRef = escodegenParams →
        (generateCodeHeap options sourceCode h0 staticRef).2
          = escodegenCallOptions options sourceCode) := by
  have hne : (h0.alloc (h0.get staticRef)).2 ≠ staticRef := by
    rw [OptionsHeap.alloc_ref]
    omega
  constructor
  · cases hSM : options.sourceMap with
    | false =>
      simp only [generateCodeHeap, hSM, Bool.false_eq_true, if_false]
      rw [OptionsHeap.get_alloc_of_lt _ _ _ (by rw [OptionsHeap.length_alloc]; omega),
        OptionsHeap.get_alloc_of_lt _ _ _ hr]
    | true =>
      simp only [generateCodeHeap, hSM, if_true]
      rw [OptionsHeap.get_alloc_of_lt _ _ _
          (by rw [OptionsHeap.length_set, OptionsHeap.length_set,
            OptionsHeap.length_alloc]; omega),
        OptionsHeap.get_set_ne _ _ _ _ hne,
        OptionsHeap.get_set_ne _ _ _ _ hne,
        OptionsHeap.get_alloc_of_lt _ _ _ hr]
  · intro hstatic
    cases hSM : options.sourceMap with
    | false =>
      simp only [generateCodeHeap, hSM, Bool.false_eq_true, if_false]
      rw [OptionsHeap.get_alloc_self, OptionsHeap.get_alloc_self, hstatic]
      simp [escodegenCallOptions, hSM]
    | true =>
      simp only [generateCodeHeap, hSM, if_true]
      rw [OptionsHeap.get_alloc_self,
        OptionsHeap.get_set_self _ _ _
          (by rw [OptionsHeap.length_set, OptionsHeap.length_alloc,
            OptionsHeap.alloc_ref]; omega),
        OptionsHeap.get_set_self _ _ _
          (by rw [OptionsHeap.length_alloc, OptionsHeap.alloc_ref]; omega),
        OptionsHeap.get_alloc_self, hstatic]
      simp [escodegenCallOptions, hSM]

/-- Witness for C10 at a concrete heap holding the static params in cell 0. -/
theorem C10_generateCode_preserves_static_params_witness :
    0 < (OptionsHeap.mk [escodegenParams]).cells.length ∧
      ((generateCodeHeap
            { deadCodeInjection := false, controlFlowFlattening := false,
              sourceMap := true, compact := true }
            "var x;" (OptionsHeap.mk [escodegenParams]) 0).1).get 0
          = (OptionsHeap.mk [escodegenParams]).get 0 ∧
        ((OptionsHeap.mk [escodegenParams]).get 0 = escodegenParams →
          (generateCodeHeap
              { deadCodeInjection := false, controlFlowFlattening := false,
                sourceMap := true, compact := true }
              "var x;" (OptionsHeap.mk [escodegenParams]) 0).2
            = escodegenCallOptions
                { deadCodeInjection := false, controlFlowFlattening := false,
                  sourceMap := true, compact := true } "var x;") :=
  ⟨by decide,
   C10_generateCode_preserves_static_params
     { deadCodeInjection := false, controlFlowFlattening := false,
       sourceMap := true, compact := true }
     "var x;" (OptionsHeap.mk [escodegenParams]) 0 (by decide)⟩

/-- C1: for every configuration and every non-degenerate parsed tree, when
every stage transform succeeds (acting as the function `f`), `transformAstTree`
runs the stages in exactly the order Preparing, then DeadCodeInjection iff the
deadCodeInjection flag is true, then ControlFlowFlattening iff the
controlFlowFlattening flag is true, then Converting, Obfuscating, Finalizing;
each stage's output tree is the next stage's input tree (the recorded calls
chain `f`, and the final tree is the fold of `f` over the stage order); and
the relative order of the four always-on stages is the same under every
configuration. -/
theorem C1_stage_pipeline (env : Env) (astTree : Program)
    (f : Program → TransformationStage → Program)
    (hdeg : isEmptyAstTree astTree = false)
    (hf : ∀ p st, env.transform p transformersList st = Except.ok (f p st)) :
    stagesOf (transformAstTree env astTree).2 = specStageOrder env.options ∧
      transformCallsOf (transformAstTree env astTree).2
        = chainTrees f astTree (specStageOrder env.options) ∧
      (transformAstTree env astTree).1
        = Except.ok (List.foldl f astTree (specStageOrder env.options)) ∧
      (TransformationStage.DeadCodeInjection ∈ specStageOrder env.options
        ↔ env.options.deadCodeInjection = true) ∧
      (TransformationStage.ControlFlowFlattening ∈ specStageOrder env.options
        ↔ env.options.controlFlowFlattening = true) ∧
      (specStageOrder env.options).filter (fun s => !isGatedStage s)
        = alwaysOnStages := by
  rw [transformAstTree_run env astTree f hdeg hf]
  refine ⟨stagesOf_stageTrace .., transformCallsOf_stageTrace .., rfl, ?_, ?_, ?_⟩ <;>
    cases hD : env.options.deadCodeInjection <;>
      cases hC : env.options.controlFlowFlattening <;>
        simp [specStageOrder, hD, hC, isGatedStage, alwaysOnStages]

/-- Witness for C1: a one-statement program in an environment with dead-code
injection on and control-flow flattening off, every transform the identity. -/
theorem C1_stage_pipeline_witness :
    isEmptyAstTree sampleProgram = false ∧
      (∀ p st, sampleEnv.transform p transformersList st
          = Except.ok ((fun q (_ : TransformationStage) => q) p st)) ∧
      (stagesOf (transformAstTree sampleEnv sampleProgram).2
          = specStageOrder sampleEnv.options ∧
        transformCallsOf (transformAstTree sampleEnv sampleProgram).2
          = chainTrees (fun q (_ : TransformationStage) => q) sampleProgram
              (specStageOrder sampleEnv.options) ∧
        (transformAstTree sampleEnv sampleProgram).1
          = Except.ok (List.foldl (fun q (_ : TransformationStage) => q)
              sampleProgram (specStageOrder sampleEnv.options)) ∧
        (TransformationStage.DeadCodeInjection ∈ specStageOrder sampleEnv.options
          ↔ sampleEnv.options.deadCodeInjection = true) ∧
        (TransformationStage.ControlFlowFlattening ∈ specStageOrder sampleEnv.options
          ↔ sampleEnv.options.controlFlowFlattening = true) ∧
        (specStageOrder sampleEnv.options).filter (fun s => !isGatedStage s)
          = alwaysOnStages) :=
  ⟨by decide, fun _ _ => rfl,
   C1_stage_pipeline sampleEnv sampleProgram
     (fun q (_ : TransformationStage) => q) (by decide) (fun _ _ => rfl)⟩

/-- C2: when the parsed tree is the canonical empty-program shape, `obfuscate`
runs zero transformation stages (no stage-entry log, no transformers-runner
call anywhere in the trace), emits a warning-level empty-source notification,
and the tree handed to generation is the parsed tree itself (the embedding's
rendering of reference identity: the short-circuit returns its input term
unchanged). -/
theorem C2_empty_program_short_circuit (env : Env) (sourceCode : String)
    (t : Program)
    (hp : env.parse sourceCode { attachComment := true, loc := env.options.sourceMap }
        = Except.ok t)
    (hdeg : isEmptyAstTree t = true) :
    transformStagesOf (obfuscate env sourceCode).2 = [] ∧
      stagesOf (obfuscate env sourceCode).2 = [] ∧
      Event.log LogLevel.warn LoggingMessage.EmptySourceCode LogPayload.noPayload
        ∈ (obfuscate env sourceCode).2 ∧
      (transformAstTree env t).1 = Except.ok t ∧
      Event.generateCall t (escodegenCallOptions env.options sourceCode)
          (env.generate t (escodegenCallOptions env.options sourceCode))
        ∈ (obfuscate env sourceCode).2 := by
  have hTA := transformAstTree_empty env t hdeg
  have hgt := generateCode_trace env sourceCode t
  refine ⟨?_, ?_, ?_, by rw [hTA], ?_⟩ <;>
    cases hg : (generateCode env sourceCode t).1 with
  | error ge =>
    rw [obfuscate_generation_error env sourceCode t t _ ge hp hTA hg, hgt]
    simp [startTrace, transformStagesOf, stagesOf, List.filterMap_append,
      List.filterMap_cons]
  | ok out =>
    rw [obfuscate_run env sourceCode t t _ out hp hTA hg, hgt]
    simp [startTrace, transformStagesOf, stagesOf, List.filterMap_append,
      List.filterMap_cons]

/-- Witness for C2: an environment whose parser yields the canonical empty
program. -/
theorem C2_empty_program_short_circuit_witness :
    emptyInputEnv.parse ""
        { attachComment := true, loc := emptyInputEnv.options.sourceMap }
      = Except.ok emptyProgram ∧
    isEmptyAstTree emptyProgram = true ∧
      (transformStagesOf (obfuscate emptyInputEnv "").2 = [] ∧
        stagesOf (obfuscate emptyInputEnv "").2 = [] ∧
        Event.log LogLevel.warn LoggingMessage.EmptySourceCode LogPayload.noPayload
          ∈ (obfuscate emptyInputEnv "").2 ∧
        (transformAstTree emptyInputEnv emptyProgram).1 = Except.ok emptyProgram ∧
        Event.generateCall emptyProgram
            (escodegenCallOptions emptyInputEnv.options "")
            (emptyInputEnv.generate emptyProgram
              (escodegenCallOptions emptyInputEnv.options ""))
          ∈ (obfuscate emptyInputEnv "").2) :=
  ⟨rfl, by decide,
   C2_empty_program_short_circuit emptyInputEnv "" emptyProgram rfl (by decide)⟩

/-- C3: under the Stage Runner contract that a transform failure carries the
stage it was invoked for, a run of `obfuscate` that fails with a transform
error has, recorded in its trace, a transformers-runner call for exactly the
stage named by the error producing exactly that error; no success-level event
is logged; and no ObfuscationResult is produced. -/
theorem C3_transform_error_names_stage (env : Env) (sourceCode : String)
    (er : TransformError)
    (hcontract : stageRunnerNamesStage env)
    (herr : (obfuscate env sourceCode).1 = Except.error (ObfError.transform er)) :
    (∃ p, Event.transformCall p transformersList er.stage (Except.error er)
        ∈ (obfuscate env sourceCode).2) ∧
      successLogsOf (obfuscate env sourceCode).2 = [] ∧
      ∀ r : IObfuscationResult, (obfuscate env sourceCode).1 ≠ Except.ok r := by
  cases hP : env.parse sourceCode { attachComment := true, loc := env.options.sourceMap } with
  | error pe =>
    rw [obfuscate_parse_error env sourceCode pe hP] at herr
    simp at herr
  | ok t =>
    rcases hT : transformAstTree env t with ⟨r1, ttr⟩
    cases r1 with
    | ok t2 =>
      cases hg : (generateCode env sourceCode t2).1 with
      | error ge =>
        rw [obfuscate_generation_error env sourceCode t t2 ttr ge hP hT hg] at herr
        simp at herr
      | ok out =>
        rw [obfuscate_run env sourceCode t t2 ttr out hP hT hg] at herr
        simp at herr
    | error er0 =>
      rw [obfuscate_transform_error env sourceCode t er0 ttr hP hT] at herr
      simp only [Except.error.injEq, ObfError.transform.injEq] at herr
      subst herr
      rw [obfuscate_transform_error env sourceCode t er0 ttr hP hT]
      have hwit := transformAstTree_err env t er0 (by rw [hT])
      rw [hT] at hwit
      obtain ⟨p, st, hmem, hcall⟩ := hwit
      have hstage := hcontract p st er0 hcall
      refine ⟨⟨p, ?_⟩, ?_, by simp⟩
      · subst hstage
        exact List.mem_append_right _ hmem
      · have htame : ∀ e ∈ ttr, e.isTame = true := by
          have := transformAstTree_tame env t
          rw [hT] at this
          exact this
        rw [successLogsOf_append, successLogsOf_append,
          successLogsOf_of_tame ttr htame]
        simp [startTrace, successLogsOf, List.filterMap_cons]

/-- Witness for C3: a transformers runner that faults during the Obfuscating
stage, matching the spec's Scenario D. -/
theorem C3_transform_error_names_stage_witness :
    stageRunnerNamesStage failingObfuscatingEnv ∧
      (obfuscate failingObfuscatingEnv "var x;").1
        = Except.error (ObfError.transform
            { stage := TransformationStage.Obfuscating, message := "fault" }) ∧
      ((∃ p, Event.transformCall p transformersList
            ({ stage := TransformationStage.Obfuscating, message := "fault" }
              : TransformError).stage
            (Except.error
              { stage := TransformationStage.Obfuscating, message := "fault" })
          ∈ (obfuscate failingObfuscatingEnv "var x;").2) ∧
        successLogsOf (obfuscate failingObfuscatingEnv "var x;").2 = [] ∧
        ∀ r : IObfuscationResult,
          (obfuscate failingObfuscatingEnv "var x;").1 ≠ Except.ok r) := by
  have hcontract : stageRunnerNamesStage failingObfuscatingEnv := by
    intro p st er h
    revert h
    cases st <;> simp [failingObfuscatingEnv, sampleEnv]
    intro h1
    rw [← h1]
  have herr : (obfuscate failingObfuscatingEnv "var x;").1
      = Except.error (ObfError.transform
          { stage := TransformationStage.Obfuscating, message := "fault" }) := by
    decide
  exact ⟨hcontract, herr,
    C3_transform_error_names_stage failingObfuscatingEnv "var x;" _ hcontract herr⟩

/-- C4: the mapping field handed to the mapping reconciler is always a string:
the serialized form of the mapping object when the generation adapter returned
one, and the empty string when it returned none — and the corrector call
recorded in the trace receives exactly that string. -/
theorem C4_map_field_is_string (env : Env) (sourceCode : String)
    (t t2 : Program) (ttr : List Event) (out : EscodegenOutput)
    (hp : env.parse sourceCode { attachComment := true, loc := env.options.sourceMap }
        = Except.ok t)
    (ht : transformAstTree env t = (Except.ok t2, ttr))
    (hg : env.generate t2 (escodegenCallOptions env.options sourceCode)
        = Except.ok out) :
    (generateCode env sourceCode t2).1
        = Except.ok { code := out.code, map := serializeMap out.map } ∧
      Event.correctCall out.code (serializeMap out.map)
        ∈ (obfuscate env sourceCode).2 ∧
      serializeMap none = "" ∧
      (∀ m, serializeMap (some m) = m.toStr) := by
  have hgen : (generateCode env sourceCode t2).1
      = Except.ok { code := out.code, map := serializeMap out.map } := by
    cases hm : out.map <;>
      simp [generateCode, hg, serializeMap, hm]
  refine ⟨hgen, ?_, rfl, fun m => rfl⟩
  rw [obfuscate_run env sourceCode t t2 ttr
    { code := out.code, map := serializeMap out.map } hp ht hgen]
  simp

/-- Witness for C4: `sampleEnv` returns a mapping object, so the corrector
receives its serialized form. -/
theorem C4_map_field_is_string_witness :
    sampleEnv.parse "var x;"
        { attachComment := true, loc := sampleEnv.options.sourceMap }
      = Except.ok sampleProgram ∧
    transformAstTree sampleEnv sampleProgram
        = (Except.ok sampleProgram,
           stageTrace (fun q (_ : TransformationStage) => q) sampleProgram
             (specStageOrder sampleEnv.options)) ∧
    sampleEnv.generate sampleProgram
        (escodegenCallOptions sampleEnv.options "var x;")
      = Except.ok sampleEscodegenOutput ∧
      ((generateCode sampleEnv "var x;" sampleProgram).1
          = Except.ok { code := sampleEscodegenOutput.code,
                        map := serializeMap sampleEscodegenOutput.map } ∧
        Event.correctCall sampleEscodegenOutput.code
            (serializeMap sampleEscodegenOutput.map)
          ∈ (obfuscate sampleEnv "var x;").2 ∧
        serializeMap none = "" ∧
        (∀ m, serializeMap (some m) = m.toStr)) :=
  ⟨rfl, by decide, rfl,
   C4_map_field_is_string sampleEnv "var x;" sampleProgram sampleProgram
     (stageTrace (fun q (_ : TransformationStage) => q) sampleProgram
        (specStageOrder sampleEnv.options))
     sampleEscodegenOutput rfl (by decide) rfl⟩

/-- C5: for every run that completes, the completion event carries elapsed
seconds computed as (completion clock sample minus entry clock sample) divided
by 1000; the clock is sampled exactly twice, the first sample being the very
first event of the run and the second coming at completion; and the success
log carrying that quotient is the unique success-level event of the trace. -/
theorem C5_completion_time (env : Env) (sourceCode : String)
    (t t2 : Program) (ttr : List Event) (out : IGeneratorOutput)
    (hp : env.parse sourceCode { attachComment := true, loc := env.options.sourceMap }
        = Except.ok t)
    (ht : transformAstTree env t = (Except.ok t2, ttr))
    (hg : (generateCode env sourceCode t2).1 = Except.ok out) :
    clockSamplesOf (obfuscate env sourceCode).2 = [env.clock 0, env.clock 1] ∧
      (obfuscate env sourceCode).2.head? = some (Event.clockSample (env.clock 0)) ∧
      successLogsOf (obfuscate env sourceCode).2
        = [(LoggingMessage.ObfuscationCompleted,
            LogPayload.time (((env.clock 1 : ℚ) - (env.clock 0 : ℚ)) / 1000))] ∧
      Event.log LogLevel.success LoggingMessage.ObfuscationCompleted
          (LogPayload.time (((env.clock 1 : ℚ) - (env.clock 0 : ℚ)) / 1000))
        ∈ (obfuscate env sourceCode).2 := by
  have htame : ∀ e ∈ ttr, e.isTame = true := by
    have h := transformAstTree_tame env t
    rw [ht] at h
    exact h
  rw [obfuscate_run env sourceCode t t2 ttr out hp ht hg,
    generateCode_trace env sourceCode t2]
  refine ⟨?_, by simp [startTrace], ?_, by simp⟩
  · rw [clockSamplesOf_append, clockSamplesOf_append, clockSamplesOf_append,
      clockSamplesOf_append, clockSamplesOf_of_tame ttr htame]
    simp [startTrace, clockSamplesOf, List.filterMap_cons]
  · rw [successLogsOf_append, successLogsOf_append, successLogsOf_append,
      successLogsOf_append, successLogsOf_of_tame ttr htame]
    simp [startTrace, successLogsOf, List.filterMap_cons]

/-- Witness for C5: in `sampleEnv` the clock reads 2000 at entry and 5000 at
completion, so the success event carries 3 seconds. -/
theorem C5_completion_time_witness :
    sampleEnv.parse "var x;"
        { attachComment := true, loc := sampleEnv.options.sourceMap }
      = Except.ok sampleProgram ∧
    transformAstTree sampleEnv sampleProgram
        = (Except.ok sampleProgram,
           stageTrace (fun q (_ : TransformationStage) => q) sampleProgram
             (specStageOrder sampleEnv.options)) ∧
    (generateCode sampleEnv "var x;" sampleProgram).1
        = Except.ok { code := "obfuscated", map := "MAP" } ∧
      (clockSamplesOf (obfuscate sampleEnv "var x;").2
          = [sampleEnv.clock 0, sampleEnv.clock 1] ∧
        (obfuscate sampleEnv "var x;").2.head?
          = some (Event.clockSample (sampleEnv.clock 0)) ∧
        successLogsOf (obfuscate sampleEnv "var x;").2
          = [(LoggingMessage.ObfuscationCompleted,
              LogPayload.time
                (((sampleEnv.clock 1 : ℚ) - (sampleEnv.clock 0 : ℚ)) / 1000))] ∧
        Event.log LogLevel.success LoggingMessage.ObfuscationCompleted
            (LogPayload.time
              (((sampleEnv.clock 1 : ℚ) - (sampleEnv.clock 0 : ℚ)) / 1000))
          ∈ (obfuscate sampleEnv "var x;").2) :=
  ⟨rfl, by decide, by decide,
   C5_completion_time sampleEnv "var x;" sampleProgram sampleProgram
     (stageTrace (fun q (_ : TransformationStage) => q) sampleProgram
        (specStageOrder sampleEnv.options))
     { code := "obfuscated", map := "MAP" } rfl (by decide) (by decide)⟩

/-- C6: on every run, whatever the collaborators do, the external parser is
invoked exactly once, with leading-comment attachment enabled and with
source-location tracking equal to the source-map configuration flag; the call
and its options are recorded in the trace. -/
theorem C6_parse_invocation (env : Env) (sourceCode : String) :
    parseCallsOf (obfuscate env sourceCode).2
        = [{ attachComment := true, loc := env.options.sourceMap }] ∧
      Event.parseCall sourceCode
          { attachComment := true, loc := env.options.sourceMap }
          (env.parse sourceCode { attachComment := true, loc := env.options.sourceMap })
        ∈ (obfuscate env sourceCode).2 := by
  cases hP : env.parse sourceCode
      { attachComment := true, loc := env.options.sourceMap } with
  | error pe =>
    rw [obfuscate_parse_error env sourceCode pe hP]
    simp [startTrace, parseCallsOf, List.filterMap_append, List.filterMap_cons]
  | ok t =>
    have htame : ∀ e ∈ (transformAstTree env t).2, e.isTame = true :=
      transformAstTree_tame env t
    rcases hT : transformAstTree env t with ⟨r1, ttr⟩
    rw [hT] at htame
    cases r1 with
    | error er =>
      rw [obfuscate_transform_error env sourceCode t er ttr hP hT]
      rw [parseCallsOf_append, parseCallsOf_append,
        parseCallsOf_eq_nil_of_tame ttr htame]
      simp [startTrace, parseCallsOf, List.filterMap_cons]
    | ok t2 =>
      cases hg : (generateCode env sourceCode t2).1 with
      | error ge =>
        rw [obfuscate_generation_error env sourceCode t t2 ttr ge hP hT hg,
          generateCode_trace env sourceCode t2]
        rw [parseCallsOf_append, parseCallsOf_append, parseCallsOf_append,
          parseCallsOf_eq_nil_of_tame ttr htame]
        simp [startTrace, parseCallsOf, List.filterMap_cons]
      | ok out =>
        rw [obfuscate_run env sourceCode t t2 ttr out hP hT hg,
          generateCode_trace env sourceCode t2]
        rw [parseCallsOf_append, parseCallsOf_append, parseCallsOf_append,
          parseCallsOf_append, parseCallsOf_eq_nil_of_tame ttr htame]
        simp [startTrace, parseCallsOf, List.filterMap_cons]

/-- C7: when the external parser rejects the source text, `obfuscate` fails
with exactly that parse error, unmodified; the parser is consulted exactly
once (no retry); no transformation stage runs, no generator or corrector call
happens, no success is logged, and no ObfuscationResult is produced. -/
theorem C7_parse_rejection (env : Env) (sourceCode : String) (pe : ParseError)
    (hp : env.parse sourceCode { attachComment := true, loc := env.options.sourceMap }
        = Except.error pe) :
    (obfuscate env sourceCode).1 = Except.error (ObfError.parse pe) ∧
      parseCallsOf (obfuscate env sourceCode).2
        = [{ attachComment := true, loc := env.options.sourceMap }] ∧
      transformStagesOf (obfuscate env sourceCode).2 = [] ∧
      stagesOf (obfuscate env sourceCode).2 = [] ∧
      (∀ tr o r, Event.generateCall tr o r ∉ (obfuscate env sourceCode).2) ∧
      (∀ c m, Event.correctCall c m ∉ (obfuscate env sourceCode).2) ∧
      successLogsOf (obfuscate env sourceCode).2 = [] ∧
      ∀ r : IObfuscationResult, (obfuscate env sourceCode).1 ≠ Except.ok r := by
  rw [obfuscate_parse_error env sourceCode pe hp]
  simp [startTrace, parseCallsOf, transformStagesOf, stagesOf, successLogsOf,
    List.filterMap_append, List.filterMap_cons]

/-- Witness for C7: an environment whose parser rejects every input. -/
theorem C7_parse_rejection_witness :
    parseRejectEnv.parse "?syntax error?"
        { attachComment := true, loc := parseRejectEnv.options.sourceMap }
      = Except.error { message := "Unexpected token" } ∧
      ((obfuscate parseRejectEnv "?syntax error?").1
          = Except.error (ObfError.parse { message := "Unexpected token" }) ∧
        parseCallsOf (obfuscate parseRejectEnv "?syntax error?").2
          = [{ attachComment := true, loc := parseRejectEnv.options.sourceMap }] ∧
        transformStagesOf (obfuscate parseRejectEnv "?syntax error?").2 = [] ∧
        stagesOf (obfuscate parseRejectEnv "?syntax error?").2 = [] ∧
        (∀ tr o r, Event.generateCall tr o r
          ∉ (obfuscate parseRejectEnv "?syntax error?").2) ∧
        (∀ c m, Event.correctCall c m
          ∉ (obfuscate parseRejectEnv "?syntax error?").2) ∧
        successLogsOf (obfuscate parseRejectEnv "?syntax error?").2 = [] ∧
        ∀ r : IObfuscationResult,
          (obfuscate parseRejectEnv "?syntax error?").1 ≠ Except.ok r) :=
  ⟨rfl,
   C7_parse_rejection parseRejectEnv "?syntax error?"
     { message := "Unexpected token" } rfl⟩

/-- C8: the orchestrator is deterministic sequencing logic — the result
component of `obfuscate` is a function of the source text, the configuration
and the collaborator behaviours alone: changing the seed returned by the value
generator, the reported package version, or the clock (all of which feed only
the logging side effects) never changes the result value. -/
theorem C8_result_deterministic (env : Env) (sourceCode : String)
    (s1 s2 v1 v2 : String) (c1 c2 : Nat → Int) :
    (obfuscate { env with seed := s1, version := v1, clock := c1 } sourceCode).1
      = (obfuscate { env with seed := s2, version := v2, clock := c2 } sourceCode).1 := by
  cases hP : env.parse sourceCode
      { attachComment := true, loc := env.options.sourceMap } with
  | error pe =>
    rw [obfuscate_parse_error { env with seed := s1, version := v1, clock := c1 }
        sourceCode pe hP,
      obfuscate_parse_error { env with seed := s2, version := v2, clock := c2 }
        sourceCode pe hP]
  | ok t =>
    have hobs1 : transformAstTree { env with seed := s1, version := v1, clock := c1 } t
        = transformAstTree env t := transformAstTree_observe _ _ rfl rfl t
    have hobs2 : transformAstTree { env with seed := s2, version := v2, clock := c2 } t
        = transformAstTree env t := transformAstTree_observe _ _ rfl rfl t
    rcases hT : transformAstTree env t with ⟨r1, ttr⟩
    cases r1 with
    | error er =>
      rw [obfuscate_transform_error { env with seed := s1, version := v1, clock := c1 }
          sourceCode t er ttr hP (hobs1.trans hT),
        obfuscate_transform_error { env with seed := s2, version := v2, clock := c2 }
          sourceCode t er ttr hP (hobs2.trans hT)]
    | ok t2 =>
      have hgo1 : generateCode { env with seed := s1, version := v1, clock := c1 }
          sourceCode t2 = generateCode env sourceCode t2 :=
        generateCode_observe _ _ rfl rfl sourceCode t2
      have hgo2 : generateCode { env with seed := s2, version := v2, clock := c2 }
          sourceCode t2 = generateCode env sourceCode t2 :=
        generateCode_observe _ _ rfl rfl sourceCode t2
      cases hg : (generateCode env sourceCode t2).1 with
      | error ge =>
        rw [obfuscate_generation_error
            { env with seed := s1, version := v1, clock := c1 } sourceCode
            t t2 ttr ge hP (hobs1.trans hT) (by rw [hgo1]; exact hg),
          obfuscate_generation_error
            { env with seed := s2, version := v2, clock := c2 } sourceCode
            t t2 ttr ge hP (hobs2.trans hT) (by rw [hgo2]; exact hg)]
      | ok out =>
        rw [obfuscate_run { env with seed := s1, version := v1, clock := c1 }
            sourceCode t t2 ttr out hP (hobs1.trans hT) (by rw [hgo1]; exact hg),
          obfuscate_run { env with seed := s2, version := v2, clock := c2 }
            sourceCode t t2 ttr out hP (hobs2.trans hT) (by rw [hgo2]; exact hg)]

/-- C9: the empty-input short-circuit fires exactly when the root is a
Program node, the body has zero statements and no leading comments are
attached; when it fires, no transformers-runner call happens and the tree is
returned as is; when any of the three conditions fails (a non-Program root,
or attached leading comments on a zero-statement program) the run goes
through every applicable stage of the configured pipeline. -/
theorem C9_degeneracy_check (env : Env) (t : Program)
    (f : Program → TransformationStage → Program)
    (hf : ∀ p st, env.transform p transformersList st = Except.ok (f p st)) :
    (isEmptyAstTree t = true ↔
        (NodeGuards.isProgramNode t = true ∧ t.body = [] ∧
          t.leadingComments = none)) ∧
      (isEmptyAstTree t = true →
        transformStagesOf (transformAstTree env t).2 = [] ∧
          stagesOf (transformAstTree env t).2 = [] ∧
          (transformAstTree env t).1 = Except.ok t) ∧
      (isEmptyAstTree t = false →
        stagesOf (transformAstTree env t).2 = specStageOrder env.options ∧
          transformStagesOf (transformAstTree env t).2
            = specStageOrder env.options) := by
  refine ⟨?_, ?_, ?_⟩
  · simp [isEmptyAstTree, Bool.and_eq_true, List.isEmpty_iff,
      Option.isNone_iff_eq_none, and_assoc]
  · intro hdeg
    rw [transformAstTree_empty env t hdeg]
    exact ⟨rfl, rfl, rfl⟩
  · intro hdeg
    rw [transformAstTree_run env t f hdeg hf]
    exact ⟨stagesOf_stageTrace .., transformStagesOf_stageTrace ..⟩

/-- Witness for C9: a zero-statement program that carries (empty) leading
comments, which must not be treated as degenerate. -/
theorem C9_degeneracy_check_witness :
    (∀ p st, sampleEnv.transform p transformersList st
        = Except.ok ((fun q (_ : TransformationStage) => q) p st)) ∧
      ((isEmptyAstTree { nodeType := "Program", body := [], leadingComments := some [] }
          = true ↔
          (NodeGuards.isProgramNode
              { nodeType := "Program", body := [], leadingComments := some [] } = true ∧
            ({ nodeType := "Program", body := [], leadingComments := some [] }
              : Program).body = [] ∧
            ({ nodeType := "Program", body := [], leadingComments := some [] }
              : Program).leadingComments = none)) ∧
        (isEmptyAstTree { nodeType := "Program", body := [], leadingComments := some [] }
            = true →
          transformStagesOf (transformAstTree sampleEnv
              { nodeType := "Program", body := [], leadingComments := some [] }).2 = [] ∧
            stagesOf (transformAstTree sampleEnv
              { nodeType := "Program", body := [], leadingComments := some [] }).2 = [] ∧
            (transformAstTree sampleEnv
                { nodeType := "Program", body := [], leadingComments := some [] }).1
              = Except.ok { nodeType := "Program", body := [], leadingComments := some [] }) ∧
        (isEmptyAstTree { nodeType := "Program", body := [], leadingComments := some [] }
            = false →
          stagesOf (transformAstTree sampleEnv
              { nodeType := "Program", body := [], leadingComments := some [] }).2
            = specStageOrder sampleEnv.options ∧
            transformStagesOf (transformAstTree sampleEnv
                { nodeType := "Program", body := [], leadingComments := some [] }).2
              = specStageOrder sampleEnv.options)) :=
  ⟨fun _ _ => rfl,
   C9_degeneracy_check sampleEnv
     { nodeType := "Program", body := [], leadingComments := some [] }
     (fun q (_ : TransformationStage) => q) (fun _ _ => rfl)⟩

end JsObf
